import Mathlib

/-!
Verification development for the mesh_com CBMA security control plane.

The visible sources are:
  modules/sc-mesh-secure-deployment/src/2_0/features/cbma/setup_cbma.py
  modules/sc-mesh-secure-deployment/src/nats/comms_nats_controller.py
  modules/sc-mesh-secure-deployment/src/nats/src/comms_hsm_controller.py

`setup_cbma.py` is the orchestrator: its `setup_macsec` and `main` are
embedded below as trace-producing functions.  The mutual-authentication
protocol engine itself (the `mutauth` module, `WPAMonitor`, the batman
fabric integrator `mutAuth.setup_batman`) is referenced by the visible
sources but its code is not among them; those parts are modelled from the
specification, each such definition carrying a doc comment starting
`Modelled from the spec:`.
-/

namespace SetupCbma

/-- One observable action performed by `setup_macsec` in `setup_cbma.py`,
in the order the function body performs them.  Queues are identified by a
numeric tag so that the trace records which queue each consumer/producer
was given. -/
inductive SetupEvent where
  | waitUp (iface : String)
  | createQueue (q : Nat)
  | createMutAuth (level : String) (iface : String) (port : Nat) (batIface : String) (q : Nat)
  | waitPingable (iface : String) (ip : String)
  | startAuthServer
  | startWpaMonitor (ctrlPath : String) (q : Nat)
  | startMulticastReceiver
  | startDispatchMonitor
  | startBeaconSender
deriving DecidableEq

/-- Embedding of `setup_macsec(level, interface_name, port, batman_interface,
path_to_certificate, path_to_ca, wpa_supplicant_control_path=None)` as the
trace of actions its body performs:
`wait_for_interface_to_be_up`; `queue.Queue()`; `mutAuth(...)`;
`wait_for_interface_to_be_pingable(mua.meshiface, mua.ipAddress)`;
`mua.start_auth_server()`; optionally `WPAMonitor` + thread start when a
control path was supplied; then receiver, monitor and sender threads.
`q` is the tag of the freshly created `in_queue` and `ip` stands for
`mua.ipAddress`. -/
def setup_macsec (level iface : String) (port : Nat) (batIface : String)
    (wpaCtrl : Option String) (q : Nat) (ip : String) : List SetupEvent :=
  [SetupEvent.waitUp iface,
   SetupEvent.createQueue q,
   SetupEvent.createMutAuth level iface port batIface q,
   SetupEvent.waitPingable iface ip,
   SetupEvent.startAuthServer]
  ++ (match wpaCtrl with
      | some p => [SetupEvent.startWpaMonitor p q]
      | none => [])
  ++ [SetupEvent.startMulticastReceiver,
      SetupEvent.startDispatchMonitor,
      SetupEvent.startBeaconSender]

/-- Recognises the `wait_for_interface_to_be_up` call. -/
def isWaitUp : SetupEvent → Bool
  | SetupEvent.waitUp _ => true
  | _ => false

/-- Recognises the `wait_for_interface_to_be_pingable` call. -/
def isWaitPingable : SetupEvent → Bool
  | SetupEvent.waitPingable _ _ => true
  | _ => false

/-- Recognises either readiness-gate call. -/
def isWaitEvent (e : SetupEvent) : Bool :=
  isWaitUp e || isWaitPingable e

/-- Recognises the start of one of the workers: auth server, supplicant
monitor, multicast receiver, dispatch monitor, beacon sender. -/
def isWorkerStart : SetupEvent → Bool
  | SetupEvent.startAuthServer => true
  | SetupEvent.startWpaMonitor _ _ => true
  | SetupEvent.startMulticastReceiver => true
  | SetupEvent.startDispatchMonitor => true
  | SetupEvent.startBeaconSender => true
  | _ => false

/-- One top-level call performed by `main()` in `setup_cbma.py`. -/
inductive MainCall where
  | runScript (path : String)
  | runMacsec (level iface : String) (port : Nat) (batIface : String)
      (certPath caPath : String) (wpaCtrl : Option String)
  | runSetupBatman (batIface : String)
deriving DecidableEq

/-- Embedding of `main()` in `setup_cbma.py` as its sequence of top-level
calls: the `delete_default_brlan_bat0.sh` subprocess, then
`setup_macsec` for the lower level on `wlp1s0` followed by
`mua_wlp1s0.setup_batman()` (whose batman interface is `bat0`), then
`setup_macsec` for the upper level on `bat0` followed by
`mua_bat0.setup_batman()` (whose batman interface is `bat1`).
`fileDir` stands for the `file_dir` module constant. -/
def main (fileDir : String) : List MainCall :=
  [MainCall.runScript (fileDir ++ "/delete_default_brlan_bat0.sh"),
   MainCall.runMacsec "lower" "wlp1s0" 15001 "bat0"
     (fileDir ++ "/cert_generation/certificates")
     (fileDir ++ "/cert_generation/certificates/ca.crt")
     (some "/var/run/wpa_supplicant_id0/wlp1s0"),
   MainCall.runSetupBatman "bat0",
   MainCall.runMacsec "upper" "bat0" 15002 "bat1"
     (fileDir ++ "/cert_generation/certificates")
     (fileDir ++ "/cert_generation/certificates/ca.crt")
     none,
   MainCall.runSetupBatman "bat1"]

/-- Recognises a `setup_macsec` invocation in the `main` trace. -/
def isRunMacsec : MainCall → Bool
  | MainCall.runMacsec _ _ _ _ _ _ _ => true
  | _ => false

/-- The supplicant control path of a `main` call, when it is a
`setup_macsec` invocation. -/
def wpaCtrlOf : MainCall → Option String
  | MainCall.runMacsec _ _ _ _ _ _ w => w
  | _ => none

/-- Claim C5: in every invocation of `setup_macsec`,
`wait_for_interface_to_be_up` and `wait_for_interface_to_be_pingable` are
each called exactly once, and the trace splits into a prefix holding both
readiness waits and no worker start, followed by a suffix holding no wait:
both waits complete before any worker (auth server, supplicant monitor,
multicast receiver, dispatch monitor, beacon sender) is started. -/
theorem setup_macsec_readiness_before_workers :
    ∀ (level iface : String) (port : Nat) (batIface : String)
      (wpaCtrl : Option String) (q : Nat) (ip : String),
    (setup_macsec level iface port batIface wpaCtrl q ip).countP (fun e => isWaitUp e) = 1 ∧
    (setup_macsec level iface port batIface wpaCtrl q ip).countP (fun e => isWaitPingable e) = 1 ∧
    ∃ ws rest,
      setup_macsec level iface port batIface wpaCtrl q ip = ws ++ rest ∧
      ws.countP (fun e => isWaitUp e) = 1 ∧
      ws.countP (fun e => isWaitPingable e) = 1 ∧
      (∀ e ∈ ws, isWorkerStart e = false) ∧
      (∀ e ∈ rest, isWaitEvent e = false) := by
  intro level iface port batIface wpaCtrl q ip
  cases wpaCtrl with
  | none =>
      refine ⟨?_, ?_,
        [SetupEvent.waitUp iface, SetupEvent.createQueue q,
         SetupEvent.createMutAuth level iface port batIface q,
         SetupEvent.waitPingable iface ip],
        [SetupEvent.startAuthServer, SetupEvent.startMulticastReceiver,
         SetupEvent.startDispatchMonitor, SetupEvent.startBeaconSender],
        ?_, ?_, ?_, ?_, ?_⟩ <;>
        simp [setup_macsec, isWaitUp, isWaitPingable, isWaitEvent, isWorkerStart]
  | some p =>
      refine ⟨?_, ?_,
        [SetupEvent.waitUp iface, SetupEvent.createQueue q,
         SetupEvent.createMutAuth level iface port batIface q,
         SetupEvent.waitPingable iface ip],
        [SetupEvent.startAuthServer, SetupEvent.startWpaMonitor p q,
         SetupEvent.startMulticastReceiver,
         SetupEvent.startDispatchMonitor, SetupEvent.startBeaconSender],
        ?_, ?_, ?_, ?_, ?_⟩ <;>
        simp [setup_macsec, isWaitUp, isWaitPingable, isWaitEvent, isWorkerStart]

/-- Claim C6: the supplicant monitor (`WPAMonitor` thread) is started by
`setup_macsec` if and only if a `wpa_supplicant_control_path` is supplied;
when started it is given exactly the queue `in_queue` that was passed to
`mutAuth` (the multicast transport); and `main`'s upper-level invocation
over `bat0` supplies no supplicant path, so its trace starts no supplicant
monitor. -/
theorem wpa_bridge_iff_ctrl_path :
    ∀ (level iface : String) (port : Nat) (batIface : String)
      (wpaCtrl : Option String) (q : Nat) (ip : String),
    ((∃ p qq, SetupEvent.startWpaMonitor p qq ∈
        setup_macsec level iface port batIface wpaCtrl q ip) ↔ wpaCtrl.isSome = true) ∧
    (∀ p qq, SetupEvent.startWpaMonitor p qq ∈
        setup_macsec level iface port batIface wpaCtrl q ip →
      wpaCtrl = some p ∧ qq = q ∧
      SetupEvent.createMutAuth level iface port batIface q ∈
        setup_macsec level iface port batIface wpaCtrl q ip) ∧
    (∀ (fileDir level2 iface2 : String) (port2 : Nat) (bat2 cp ca : String)
       (w : Option String),
      MainCall.runMacsec level2 iface2 port2 bat2 cp ca w ∈ main fileDir →
      level2 = "upper" → w = none ∧ iface2 = "bat0") ∧
    (∀ (q2 : Nat) (ip2 p : String) (qq : Nat),
      SetupEvent.startWpaMonitor p qq ∉
        setup_macsec "upper" "bat0" 15002 "bat1" none q2 ip2) := by
  intro level iface port batIface wpaCtrl q ip
  refine ⟨?_, ?_, ?_, ?_⟩
  · cases wpaCtrl <;> simp [setup_macsec]
  · intro p qq h
    cases wpaCtrl with
    | none => simp [setup_macsec] at h
    | some r => simp [setup_macsec] at h ⊢; simp_all
  · intro fileDir level2 iface2 port2 bat2 cp ca w hmem hlev
    subst hlev
    simp [main] at hmem
    simp_all
  · intro q2 ip2 p qq
    simp [setup_macsec]

/-- Claim C7: `main` invokes the orchestrator (`setup_macsec`) exactly
twice — once at level `lower` on radio `wlp1s0` with port 15001 feeding
`bat0`, once at level `upper` on interface `bat0` with port 15002 feeding
`bat1` — and every `setup_macsec` invocation in the `main` trace is
immediately followed by `setup_batman` on its batman interface. -/
theorem main_invokes_two_levels :
    ∀ fileDir : String,
    (main fileDir).countP isRunMacsec = 2 ∧
    (∃ cp ca, MainCall.runMacsec "lower" "wlp1s0" 15001 "bat0" cp ca
        (some "/var/run/wpa_supplicant_id0/wlp1s0") ∈ main fileDir) ∧
    (∃ cp ca, MainCall.runMacsec "upper" "bat0" 15002 "bat1" cp ca none ∈ main fileDir) ∧
    (∀ (i : Nat) (level iface : String) (port : Nat) (batIface cp ca : String)
       (w : Option String),
      (main fileDir)[i]? = some (MainCall.runMacsec level iface port batIface cp ca w) →
      (main fileDir)[i+1]? = some (MainCall.runSetupBatman batIface)) := by
  intro fileDir
  refine ⟨?_, ?_, ?_, ?_⟩
  · simp [main, isRunMacsec]
  · exact ⟨fileDir ++ "/cert_generation/certificates",
      fileDir ++ "/cert_generation/certificates/ca.crt", by simp [main]⟩
  · exact ⟨fileDir ++ "/cert_generation/certificates",
      fileDir ++ "/cert_generation/certificates/ca.crt", by simp [main]⟩
  · intro i level iface port batIface cp ca w h
    match i with
    | 0 => simp [main] at h
    | 1 => simp [main] at h ⊢; simp_all
    | 2 => simp [main] at h
    | 3 => simp [main] at h ⊢; simp_all
    | 4 => simp [main] at h
    | n + 5 => simp [main] at h

/-- Witness for C5 at a concrete invocation. -/
theorem setup_macsec_readiness_before_workers_witness :
    (setup_macsec "lower" "wlp1s0" 15001 "bat0"
      (some "/var/run/wpa_supplicant_id0/wlp1s0") 0 "10.0.0.1").countP
        (fun e => isWaitUp e) = 1 :=
  (setup_macsec_readiness_before_workers "lower" "wlp1s0" 15001 "bat0"
    (some "/var/run/wpa_supplicant_id0/wlp1s0") 0 "10.0.0.1").1

/-- Witness for C6: the upper-level `main` invocation carries no
supplicant control path, checked at a concrete `file_dir`. -/
theorem wpa_bridge_iff_ctrl_path_witness :
    (none : Option String) = none ∧ "bat0" = "bat0" :=
  (wpa_bridge_iff_ctrl_path "upper" "bat0" 15002 "bat1" none 0 "10.0.0.2").2.2.1
    "d" "upper" "bat0" 15002 "bat1"
    ("d" ++ "/cert_generation/certificates")
    ("d" ++ "/cert_generation/certificates/ca.crt")
    none (by simp [main]) rfl

/-- Witness for C7: in `main ""`, the lower-level `setup_macsec` call at
index 1 is immediately followed by `setup_batman` on `bat0`. -/
theorem main_invokes_two_levels_witness :
    (main "")[2]? = some (MainCall.runSetupBatman "bat0") :=
  (main_invokes_two_levels "").2.2.2 1 "lower" "wlp1s0" 15001 "bat0"
    ("" ++ "/cert_generation/certificates")
    ("" ++ "/cert_generation/certificates/ca.crt")
    (some "/var/run/wpa_supplicant_id0/wlp1s0") (by simp [main])

end SetupCbma

namespace MeshTelemetry

/-- The attributes of a `MeshTelemetry` instance that `stop()` in
`comms_nats_controller.py` reads or writes: `self.visualisation_enabled`,
`self.batman_visual.thread_running` and `self.batman.thread_running`. -/
structure TelemetryState where
  visualisation_enabled : Bool
  visual_thread_running : Bool
  stats_thread_running : Bool
deriving DecidableEq

/-- A `Thread.join()` performed by `stop()`: either on `self.thread_visual`
or on `self.thread_stats`. -/
inductive JoinAction where
  | joinVisual
  | joinStats
deriving DecidableEq

/-- Embedding of `MeshTelemetry.stop()`: sets `visualisation_enabled` to
`False`; if `batman_visual.thread_running` then clears it and joins
`thread_visual`; if `batman.thread_running` then clears it and joins
`thread_stats`.  Returns the final state together with the list of joins
performed. -/
def stop (s : TelemetryState) : TelemetryState × List JoinAction :=
  let s1 : TelemetryState := { s with visualisation_enabled := false }
  let p1 : TelemetryState × List JoinAction :=
    if s1.visual_thread_running then
      ({ s1 with visual_thread_running := false }, [JoinAction.joinVisual])
    else
      (s1, [])
  let p2 : TelemetryState × List JoinAction :=
    if p1.1.stats_thread_running then
      ({ p1.1 with stats_thread_running := false }, p1.2 ++ [JoinAction.joinStats])
    else
      p1
  p2

/-- Claim C9: `MeshTelemetry.stop()` is idempotent.  After one completed
call both `thread_running` flags are cleared and `visualisation_enabled`
is `False`; a second call leaves the state unchanged and joins no
thread. -/
theorem stop_idempotent :
    ∀ s : TelemetryState,
    (stop s).1.visualisation_enabled = false ∧
    (stop s).1.visual_thread_running = false ∧
    (stop s).1.stats_thread_running = false ∧
    stop (stop s).1 = ((stop s).1, []) := by
  intro s
  obtain ⟨v, tv, ts⟩ := s
  cases tv <;> cases ts <;> simp [stop]

end MeshTelemetry

namespace Hsm

/-- A certificate object found on the token by
`CommsHSMController.get_certificate` in `comms_hsm_controller.py`:
its validity window (`not_valid_before`, `not_valid_after`, as abstract
time stamps) and its DER value (`CKA_VALUE`, as an abstract tag).  The
PEM string returned by the code is the rendering of this value. -/
structure HsmCert where
  notValidBefore : Nat
  notValidAfter : Nat
  derValue : Nat
deriving DecidableEq

/-- The validity test of `get_certificate`:
`certificate.not_valid_before <= current_time <= certificate.not_valid_after`. -/
def validAt (now : Nat) (c : HsmCert) : Bool :=
  decide (c.notValidBefore ≤ now) && decide (now ≤ c.notValidAfter)

/-- Embedding of the loop of `CommsHSMController.get_certificate` over the
certificate objects matching the label and id: return the first valid
certificate (as PEM); destroy (`destroyObject`) every invalid certificate
encountered before it; return `None` when no valid one is found.  The
result is the returned certificate (if any) together with the list of
destroyed certificates. -/
def get_certificate (now : Nat) : List HsmCert → Option HsmCert × List HsmCert
  | [] => (none, [])
  | c :: rest =>
    if validAt now c then
      (some c, [])
    else
      let r := get_certificate now rest
      (r.1, c :: r.2)

/-- Claim C10: `get_certificate` returns a certificate only if its
validity window contains the current time; it returns `None` exactly when
no matching valid certificate exists; every certificate it destroys is
outside its validity window; and the destroyed certificates are exactly
the (invalid) prefix of the matching certificates encountered before the
returned one, so every encountered invalid certificate is destroyed. -/
theorem get_certificate_valid_window :
    ∀ (now : Nat) (certs : List HsmCert),
    (∀ c, (get_certificate now certs).1 = some c → validAt now c = true) ∧
    ((get_certificate now certs).1 = none ↔ ∀ c ∈ certs, validAt now c = false) ∧
    (∀ c ∈ (get_certificate now certs).2, validAt now c = false) ∧
    (∃ rest, certs = (get_certificate now certs).2 ++ rest ∧
      ((get_certificate now certs).1 = none → rest = []) ∧
      (∀ c, (get_certificate now certs).1 = some c → rest.head? = some c)) := by
  intro now certs
  induction certs with
  | nil => simp [get_certificate]
  | cons c rest ih =>
      obtain ⟨ih1, ih2, ih3, rest2, hsplit, hnone, hsome⟩ := ih
      by_cases hv : validAt now c = true
      · refine ⟨?_, ?_, ?_, c :: rest, ?_, ?_, ?_⟩ <;>
          simp [get_certificate, hv]
      · simp only [Bool.not_eq_true] at hv
        refine ⟨?_, ?_, ?_, rest2, ?_, ?_, ?_⟩
        · intro d hd
          simp [get_certificate, hv] at hd
          exact ih1 d hd
        · simp [get_certificate, hv, ih2]
        · intro d hd
          simp [get_certificate, hv] at hd
          rcases hd with h | h
          · subst h; exact hv
          · exact ih3 d h
        · simp [get_certificate, hv]
          exact hsplit
        · intro h
          simp [get_certificate, hv] at h
          exact hnone h
        · intro d hd
          simp [get_certificate, hv] at hd
          exact hsome d hd

/-- Witness for C10 at a concrete token state: with `now = 10`, an expired
certificate followed by a valid one, the returned certificate is the valid
one. -/
theorem get_certificate_valid_window_witness :
    validAt 10 ⟨0, 20, 2⟩ = true :=
  (get_certificate_valid_window 10 [⟨0, 5, 1⟩, ⟨0, 20, 2⟩]).1 ⟨0, 20, 2⟩ (by decide)

end Hsm

namespace MutAuth

/-- Modelled from the spec: the per-`PeerRecord` authentication state of
the Mutual Authentication Engine (the `mutauth` module, which is not among
the visible sources): `Unknown → Discovered → Authenticating →
{Authenticated | Failed}`. -/
inductive PeerState where
  | Unknown
  | Discovered
  | Authenticating
  | Authenticated
  | Failed
deriving DecidableEq

/-- Modelled from the spec: an event drained from the shared queue by the
single dispatch loop — a discovery event for a peer (beacon or supplicant
bridge), or the completion of a handshake for a peer with its outcome. -/
inductive EngineEvent where
  | discovery (p : Nat)
  | handshakeResult (p : Nat) (ok : Bool)
deriving DecidableEq

/-- Modelled from the spec: the engine's state — the `PeerRecord` auth
state per peer identifier, and the multiset of currently live
`AuthSession`s, each entry labelled by the peer it is bound to. -/
structure EngineState where
  records : Nat → PeerState
  sessions : List Nat

/-- The engine state at startup: every peer `Unknown`, no session. -/
def initEngine : EngineState :=
  { records := fun _ => PeerState.Unknown, sessions := [] }

/-- Pointwise update of the record map. -/
def setRecord (r : Nat → PeerState) (p : Nat) (st : PeerState) : Nat → PeerState :=
  fun q => if q = p then st else r q

/-- Modelled from the spec: one iteration of the single dispatch loop of
the Mutual Authentication Engine (`mutauth`, not among the visible
sources).  A discovery event takes `Unknown` to `Discovered`; a further
discovery starts a handshake (`Discovered → Authenticating`, creating an
`AuthSession`); discovery during `Authenticating` or `Authenticated` is a
refresh only and starts nothing; a `Failed` record reverts to
`Discovered`, eligible for retry.  A handshake result for an
`Authenticating` peer discards that peer's `AuthSession` and moves the
record to `Authenticated` or `Failed`; results for peers not
authenticating are ignored. -/
def dispatchStep (s : EngineState) (e : EngineEvent) : EngineState :=
  match e with
  | EngineEvent.discovery p =>
    match s.records p with
    | PeerState.Unknown =>
        { s with records := setRecord s.records p PeerState.Discovered }
    | PeerState.Discovered =>
        { records := setRecord s.records p PeerState.Authenticating,
          sessions := p :: s.sessions }
    | PeerState.Authenticating => s
    | PeerState.Authenticated => s
    | PeerState.Failed =>
        { s with records := setRecord s.records p PeerState.Discovered }
  | EngineEvent.handshakeResult p ok =>
    match s.records p with
    | PeerState.Authenticating =>
        { records := setRecord s.records p
            (if ok then PeerState.Authenticated else PeerState.Failed),
          sessions := s.sessions.erase p }
    | _ => s

/-- The engine state after the dispatch loop has processed a sequence of
events from the shared queue, in arrival order. -/
def runEngine (events : List EngineEvent) : EngineState :=
  List.foldl dispatchStep initEngine events

/-- The session invariant: per peer, at most one live `AuthSession`, and a
session is live for a peer exactly when that peer's record is
`Authenticating`. -/
def SessionInv (s : EngineState) : Prop :=
  ∀ p : Nat,
    s.sessions.count p ≤ 1 ∧
    (s.records p = PeerState.Authenticating ↔ p ∈ s.sessions)

lemma sessionInv_init : SessionInv initEngine := by
  intro p
  simp [initEngine]

lemma sessionInv_step (s : EngineState) (e : EngineEvent) (h : SessionInv s) :
    SessionInv (dispatchStep s e) := by
  cases e with
  | discovery p0 =>
      cases hrec : s.records p0 with
      | Unknown =>
          intro p
          simp only [dispatchStep, hrec]
          by_cases hp : p = p0
          · subst hp
            refine ⟨(h p).1, ?_⟩
            have hnot : p ∉ s.sessions := by
              intro hmem
              have := (h p).2.2 hmem
              rw [hrec] at this
              exact PeerState.noConfusion this
            simp [setRecord, hnot]
          · have := h p
            simpa [setRecord, hp] using this
      | Discovered =>
          intro p
          simp only [dispatchStep, hrec]
          by_cases hp : p = p0
          · subst hp
            have hnot : p ∉ s.sessions := by
              intro hmem
              have := (h p).2.2 hmem
              rw [hrec] at this
              exact PeerState.noConfusion this
            constructor
            · simp [List.count_cons_self, List.count_eq_zero.2 hnot]
            · simp [setRecord]
          · have := h p
            constructor
            · simpa [List.count_cons_of_ne hp] using this.1
            · simpa [setRecord, hp, List.mem_cons, hp] using this.2
      | Authenticating => simpa [dispatchStep, hrec] using h
      | Authenticated => simpa [dispatchStep, hrec] using h
      | Failed =>
          intro p
          simp only [dispatchStep, hrec]
          by_cases hp : p = p0
          · subst hp
            refine ⟨(h p).1, ?_⟩
            have hnot : p ∉ s.sessions := by
              intro hmem
              have := (h p).2.2 hmem
              rw [hrec] at this
              exact PeerState.noConfusion this
            simp [setRecord, hnot]
          · have := h p
            simpa [setRecord, hp] using this
  | handshakeResult p0 ok =>
      cases hrec : s.records p0 with
      | Authenticating =>
          intro p
          simp only [dispatchStep, hrec]
          by_cases hp : p = p0
          · subst hp
            have hcount : s.sessions.count p ≤ 1 := (h p).1
            have hzero : (s.sessions.erase p).count p = 0 := by
              rw [List.count_erase_self]
              omega
            have hnotmem : p ∉ s.sessions.erase p := List.count_eq_zero.1 hzero
            constructor
            · rw [hzero]; omega
            · cases ok <;> simp [setRecord, hnotmem]
          · have := h p
            constructor
            · rw [List.count_erase_of_ne hp]
              exact this.1
            · rw [List.mem_erase_of_ne hp]
              simpa [setRecord, hp] using this.2
      | Unknown => simpa [dispatchStep, hrec] using h
      | Discovered => simpa [dispatchStep, hrec] using h
      | Authenticated => simpa [dispatchStep, hrec] using h
      | Failed => simpa [dispatchStep, hrec] using h

lemma sessionInv_foldl (events : List EngineEvent) :
    ∀ s : EngineState, SessionInv s → SessionInv (List.foldl dispatchStep s events) := by
  induction events with
  | nil => intro s h; simpa using h
  | cons e rest ih =>
      intro s h
      exact ih (dispatchStep s e) (sessionInv_step s e h)

/-- Claim C1: for every sequence of events processed by the dispatch loop,
at most one `AuthSession` is live (in `Authenticating` state) for any
given peer at any time: the engine never runs two concurrent handshakes
with the same peer. -/
theorem at_most_one_session_per_peer :
    ∀ (events : List EngineEvent) (p : Nat),
    (runEngine events).sessions.count p ≤ 1 :=
  fun events p =>
    (sessionInv_foldl events initEngine sessionInv_init p).1

/-- Modelled from the spec: the peer certificate presented during the TLS
handshake, as the engine's validation sees it — its subject identifier
(the MAC-derived identifier it claims) and whether it validates against
the level's CA. -/
structure PeerCert where
  subject : Nat
  signedByCA : Bool
deriving DecidableEq

/-- Modelled from the spec: the engine's handshake verdict (`mutauth`, not
among the visible sources) — the handshake succeeds only when the TLS
exchange completed, the peer certificate validates against the level's
CA, and the post-handshake identity check confirms the certificate's
subject matches the MAC observed in the discovery event. -/
def handshakeOutcome (tlsCompleted : Bool) (cert : PeerCert) (observedMac : Nat) : Bool :=
  tlsCompleted && cert.signedByCA && decide (cert.subject = observedMac)

/-- Claim C2: a handshake in which the peer presents a certificate validly
signed by the level's CA but whose subject does not match the MAC from
the discovery event ends with the `PeerRecord` in state `Failed`, never
`Authenticated`. -/
theorem wrong_peer_cert_ends_failed :
    ∀ (s : EngineState) (p : Nat) (cert : PeerCert) (tls : Bool),
    cert.signedByCA = true →
    cert.subject ≠ p →
    s.records p = PeerState.Authenticating →
    (dispatchStep s (EngineEvent.handshakeResult p (handshakeOutcome tls cert p))).records p
      = PeerState.Failed ∧
    (dispatchStep s (EngineEvent.handshakeResult p (handshakeOutcome tls cert p))).records p
      ≠ PeerState.Authenticated := by
  intro s p cert tls hsig hmac hrec
  have hout : handshakeOutcome tls cert p = false := by
    simp [handshakeOutcome, hmac]
  rw [hout]
  simp [dispatchStep, hrec, setRecord]

/-- Witness for C2: a peer reaches `Authenticating` after two discovery
events; a completed TLS handshake presenting a CA-signed certificate with
the wrong subject then leaves its record `Failed`. -/
theorem wrong_peer_cert_ends_failed_witness :
    (dispatchStep (runEngine [EngineEvent.discovery 1, EngineEvent.discovery 1])
        (EngineEvent.handshakeResult 1 (handshakeOutcome true ⟨2, true⟩ 1))).records 1
      = PeerState.Failed :=
  (wrong_peer_cert_ends_failed
    (runEngine [EngineEvent.discovery 1, EngineEvent.discovery 1])
    1 ⟨2, true⟩ true rfl (by decide) (by decide)).1

end MutAuth

namespace Fabric

/-- Modelled from the spec: the state the Mesh Fabric Integrator's
batman-identity assignment acts on — whether the batman interface already
has an assigned hardware identity, and the identity of the underlying
physical interface. -/
structure BatmanState where
  batmanMac : Option Nat
  physMac : Nat
deriving DecidableEq

/-- Modelled from the spec: `mutAuth.setup_batman` (the mutauth module,
not among the visible sources) — if the batman interface already has an
assigned identity the call is a no-op; otherwise it sets the batman
interface's hardware identity equal to the underlying physical
interface's identity. -/
def setup_batman (s : BatmanState) : BatmanState :=
  match s.batmanMac with
  | some _ => s
  | none => { s with batmanMac := some s.physMac }

/-- Claim C3: `setup_batman` is idempotent — calling it twice yields the
same final identity as calling it once; the first call on an unassigned
batman interface sets the identity from the physical interface, and any
call on an already-assigned interface is a no-op. -/
theorem setup_batman_idempotent :
    ∀ s : BatmanState,
    setup_batman (setup_batman s) = setup_batman s ∧
    (s.batmanMac = none → (setup_batman s).batmanMac = some s.physMac) ∧
    (∀ m, s.batmanMac = some m → setup_batman s = s) := by
  intro s
  obtain ⟨mac, phys⟩ := s
  cases mac <;> simp [setup_batman]

/-- Witness for C3 at a concrete unassigned interface. -/
theorem setup_batman_idempotent_witness :
    setup_batman (setup_batman ⟨none, 5⟩) = setup_batman ⟨none, 5⟩ ∧
    (setup_batman ⟨none, 5⟩).batmanMac = some 5 :=
  ⟨(setup_batman_idempotent ⟨none, 5⟩).1,
   (setup_batman_idempotent ⟨none, 5⟩).2.1 rfl⟩

/-- Modelled from the spec: the deterministic initiator tie-break on the
two peers' identifiers (comparison of the MAC-derived identifiers): a
node initiates the TLS client handshake toward a peer exactly when its
identifier is the smaller of the two. -/
def initiates (a b : Nat) : Bool :=
  decide (a < b)

/-- The initiator both sides agree on for an unordered pair of peers. -/
def chosenInitiator (a b : Nat) : Nat :=
  if initiates a b then a else b

/-- Claim C4: for distinct peer identifiers A and B, exactly one of
{A initiates toward B, B initiates toward A} holds, and both sides
compute the same chosen initiator. -/
theorem initiator_tiebreak :
    ∀ a b : Nat, a ≠ b →
    ((initiates a b = true ∧ initiates b a = false) ∨
     (initiates a b = false ∧ initiates b a = true)) ∧
    chosenInitiator a b = chosenInitiator b a := by
  intro a b h
  rcases Nat.lt_or_ge a b with hlt | hge
  · have hba : ¬ b < a := Nat.not_lt.2 (Nat.le_of_lt hlt)
    constructor
    · left
      simp [initiates, hlt, hba]
    · simp [chosenInitiator, initiates, hlt, hba]
  · have hlt : b < a := Nat.lt_of_le_of_ne hge (fun hba => h hba.symm)
    have hab : ¬ a < b := Nat.not_lt.2 (Nat.le_of_lt hlt)
    constructor
    · right
      simp [initiates, hlt, hab]
    · simp [chosenInitiator, initiates, hlt, hab]

/-- Witness for C4 at the concrete pair (3, 7). -/
theorem initiator_tiebreak_witness :
    ((initiates 3 7 = true ∧ initiates 7 3 = false) ∨
     (initiates 3 7 = false ∧ initiates 7 3 = true)) ∧
    chosenInitiator 3 7 = chosenInitiator 7 3 :=
  initiator_tiebreak 3 7 (by decide)

end Fabric

namespace Cancellation

/-- A blocking worker sharing the single `shutdown_event`, identified by
its role and by the timeout of its cancellable wait (its poll/beacon
interval, in abstract time units). -/
structure WorkerLoop where
  role : String
  poll : Nat
deriving DecidableEq

/-- Modelled from the spec: one blocking worker loop of the orchestrator
(the worker bodies live in the `mutauth` module, not among the visible
sources).  Each iteration performs a cancellable wait of at most the
poll interval (at least one time unit) and then checks the shared
shutdown signal; the loop exits at the first check at or after the time
`signalAt` when the signal was raised.  The fuel argument bounds the
recursion and is sufficient whenever it is at least `signalAt - t`. -/
def loopExitAux : Nat → Nat → Nat → Nat → Nat
  | 0, _, _, t => t
  | fuel + 1, poll, signalAt, t =>
    if signalAt ≤ t then t
    else loopExitAux fuel poll signalAt (t + max 1 poll)

/-- The time at which a worker loop with poll interval `poll`, started at
time `t`, exits after the shutdown signal is raised at time `signalAt`. -/
def loopExit (poll signalAt t : Nat) : Nat :=
  loopExitAux (signalAt - t) poll signalAt t

/-- Modelled from the spec: the blocking workers of one orchestrator
instance — beacon sender, beacon receiver, supplicant listener, auth
server and the event-dispatch loop — each with a representative positive
poll/beacon interval. -/
def cbmaWorkers : List WorkerLoop :=
  [⟨"beacon_sender", 2⟩,
   ⟨"beacon_receiver", 2⟩,
   ⟨"supplicant_listener", 2⟩,
   ⟨"auth_server", 2⟩,
   ⟨"dispatch_loop", 1⟩]

lemma loopExitAux_of_le (fuel poll signalAt t : Nat) (h : signalAt ≤ t) :
    loopExitAux fuel poll signalAt t = t := by
  cases fuel <;> simp [loopExitAux, h]

lemma loopExitAux_bound :
    ∀ (fuel poll signalAt t : Nat), signalAt - t ≤ fuel → t ≤ signalAt →
    loopExitAux fuel poll signalAt t ≤ signalAt + max 1 poll := by
  intro fuel
  induction fuel with
  | zero =>
      intro poll signalAt t hfuel ht
      have : signalAt = t := by omega
      subst this
      simp [loopExitAux]
  | succ n ih =>
      intro poll signalAt t hfuel ht
      by_cases hle : signalAt ≤ t
      · simp [loopExitAux, hle]
        omega
      · have hlt : t < signalAt := Nat.lt_of_not_le hle
        have hstep : 1 ≤ max 1 poll := Nat.le_max_left 1 poll
        simp only [loopExitAux, if_neg hle]
        by_cases hnext : t + max 1 poll ≤ signalAt
        · exact ih poll signalAt (t + max 1 poll) (by omega) hnext
        · rw [loopExitAux_of_le n poll signalAt (t + max 1 poll) (by omega)]
          omega

/-- Claim C8: once the shared shutdown signal is raised, every blocking
worker of the orchestrator — beacon sender, beacon receiver, supplicant
listener, auth server, dispatch loop — exits within a bounded interval:
no later than twice its poll interval after the signal.  No worker
remains blocked forever. -/
theorem workers_exit_after_shutdown :
    ∀ w ∈ cbmaWorkers, ∀ (signalAt t : Nat), t ≤ signalAt →
    loopExit w.poll signalAt t ≤ signalAt + 2 * w.poll := by
  intro w hw signalAt t ht
  have hpoll : 1 ≤ w.poll := by
    fin_cases hw <;> decide
  have := loopExitAux_bound (signalAt - t) w.poll signalAt t (Nat.le_refl _) ht
  rw [loopExit]
  calc loopExitAux (signalAt - t) w.poll signalAt t
      ≤ signalAt + max 1 w.poll := this
    _ ≤ signalAt + 2 * w.poll := by omega

/-- Witness for C8: the beacon sender, started at time 0 with the signal
raised at time 7, exits by time 11. -/
theorem workers_exit_after_shutdown_witness :
    loopExit 2 7 0 ≤ 7 + 2 * 2 :=
  workers_exit_after_shutdown ⟨"beacon_sender", 2⟩ (by simp [cbmaWorkers]) 7 0
    (by decide)

end Cancellation
